import Mathlib

/-!
Verification development for the snake game simulation core (`src/main.rs`).

The embedding below translates the simulation model: 2D geometry (`Vec2`),
the circular body element (`Unit`) with its follow-the-leader clamp and
circle intersection test, the fruit with RNG-parameterised respawn, the
steered `Head`, the `Snake` chain with its eat / lose / grow logic, and the
per-frame step of the main loop.  `f32` arithmetic is modelled over `ℝ`;
the random 32-bit draws of `rand::rand()` are passed as explicit `ℕ`
parameters.
-/

namespace SnakeGame

noncomputable section
open scoped Classical

/-- 2D vector over `ℝ`, modelling glam's `Vec2`. -/
@[ext]
structure Vec2 where
  x : ℝ
  y : ℝ

instance : Add Vec2 := ⟨fun a b => ⟨a.x + b.x, a.y + b.y⟩⟩

instance : Sub Vec2 := ⟨fun a b => ⟨a.x - b.x, a.y - b.y⟩⟩

instance : SMul ℝ Vec2 := ⟨fun c v => ⟨c * v.x, c * v.y⟩⟩

/-- `Vec2::length`: Euclidean norm. -/
def Vec2.length (v : Vec2) : ℝ := Real.sqrt (v.x ^ 2 + v.y ^ 2)

/-- `Vec2::distance`: `(self - rhs).length()`. -/
def Vec2.distance (a b : Vec2) : ℝ := (a - b).length

/-- `Vec2::normalize`: `self * self.length().recip()`. -/
def Vec2.normalize (v : Vec2) : Vec2 := (1 / v.length) • v

/-- `Vec2::from_angle`: `(cos angle, sin angle)`. -/
def Vec2.fromAngle (angle : ℝ) : Vec2 := ⟨Real.cos angle, Real.sin angle⟩

/-- `Vec2::rotate`: complex-style product, rotating `rhs` by the angle of `v`. -/
def Vec2.rotate (v rhs : Vec2) : Vec2 :=
  ⟨v.x * rhs.x - v.y * rhs.y, v.y * rhs.x + v.x * rhs.y⟩

/-- `const INIT_SPEED: f32 = 0.4`. -/
def INIT_SPEED : ℝ := 0.4

/-- `const UNIT_RADIUS: f32 = 0.04`. -/
def UNIT_RADIUS : ℝ := 0.04

/-- `const FRUIT_RADIUS: f32 = 0.06`. -/
def FRUIT_RADIUS : ℝ := 0.06

/-- `const ROTATION_PER_SEC_RAD: f32 = 2.0`. -/
def ROTATION_PER_SEC_RAD : ℝ := 2

/-- `const FIELD_SIZE: f32 = 2.0`. -/
def FIELD_SIZE : ℝ := 2

/-- `struct Unit { position: Vec2 }`. -/
structure Unit where
  position : Vec2

/-- `Unit::go`: follow-the-leader clamp toward `prev_unit_pos`. -/
def Unit.go (u : Unit) (prev_unit_pos : Vec2) : Unit :=
  let to_prev := prev_unit_pos - u.position
  let distance := to_prev.length
  let shift := distance - 2 * UNIT_RADIUS
  if shift > 0 then ⟨u.position + shift • to_prev.normalize⟩ else u

/-- `Unit::intersect`: strict circle-overlap test. -/
def Unit.intersect (u : Unit) (position : Vec2) (radius : ℝ) : Prop :=
  u.position.distance position < radius + UNIT_RADIUS

/-- `struct Fruit { position: Vec2 }`. -/
structure Fruit where
  position : Vec2

/-- `u32::MAX`. -/
def U32_MAX : ℕ := 4294967295

/-- `rand_f32`: `rand::rand() as f64 / u32::MAX as f64`, the raw 32-bit draw
passed explicitly. -/
def rand_f32 (draw : ℕ) : ℝ := (draw : ℝ) / (U32_MAX : ℝ)

/-- `random_position`: each coordinate is `rand_f32() * 2.0 - 1.0`. -/
def random_position (d1 d2 : ℕ) : Vec2 :=
  ⟨rand_f32 d1 * 2 - 1, rand_f32 d2 * 2 - 1⟩

/-- `Fruit::respawn`, parameterised by the two RNG draws it consumes. -/
def Fruit.respawn (d1 d2 : ℕ) : Fruit := ⟨random_position d1 d2⟩

/-- `struct Head { unit: Unit, direction: Vec2, speed: f32 }`. -/
structure Head where
  unit : Unit
  direction : Vec2
  speed : ℝ

/-- `Head::rotate`: rotate `direction` by `angle` radians. -/
def Head.rotate (h : Head) (angle : ℝ) : Head :=
  let rotation := Vec2.fromAngle angle
  let new_head_direction := rotation.rotate h.direction
  { h with direction := new_head_direction }

/-- `Head::go`: advance the position by `speed * dt * direction`. -/
def Head.go (h : Head) (dt : ℝ) : Head :=
  { h with unit := ⟨h.unit.position + (h.speed * dt) • h.direction⟩ }

/-- `Head::position`. -/
def Head.position (h : Head) : Vec2 := h.unit.position

/-- `Head::intersect`: delegates to the underlying unit. -/
def Head.intersect (h : Head) (position : Vec2) (radius : ℝ) : Prop :=
  h.unit.intersect position radius

/-- `struct Snake { head: Head, units: Vec<Unit> }`. -/
structure Snake where
  head : Head
  units : List Unit

/-- The body-update loop of `Snake::go`: each unit follows the previous
unit's already-updated position, carried as the accumulator. -/
def followFrom (prev_unit_pos : Vec2) : List Unit → List Unit
  | [] => []
  | u :: rest =>
    let u2 := u.go prev_unit_pos
    u2 :: followFrom u2.position rest

/-- `Snake::go`: rotate and advance the head, then propagate the follow
constraint down the chain. -/
def Snake.go (s : Snake) (dt : ℝ) (rotation : ℝ) : Snake :=
  let angle := rotation * dt
  let head1 := (s.head.rotate angle).go dt
  { head := head1, units := followFrom head1.position s.units }

/-- `Snake::can_eat`: head-fruit circle test with `FRUIT_RADIUS`. -/
def Snake.can_eat (s : Snake) (f : Fruit) : Prop :=
  s.head.intersect f.position FRUIT_RADIUS

/-- `Snake::is_lose`: self-collision (skipping the first body unit, with
target radius `UNIT_RADIUS * 0.8`) or the head leaving the field. -/
def Snake.is_lose (s : Snake) : Prop :=
  let intersect_unit := ∃ u ∈ s.units.drop 1, s.head.intersect u.position (UNIT_RADIUS * 0.8)
  let max_coord := FIELD_SIZE / 2 - UNIT_RADIUS
  let intersect_wall := |s.head.position.x| > max_coord ∨ |s.head.position.y| > max_coord
  intersect_unit ∨ intersect_wall

/-- `Snake::add_unit`: push a copy of the last body unit (or the head's
unit when the body is empty). -/
def Snake.add_unit (s : Snake) : Snake :=
  let last_unit := s.units.getLast?.getD s.head.unit
  { s with units := s.units ++ [last_unit] }

/-- `Snake::length`: body units plus the head. -/
def Snake.length (s : Snake) : ℕ := s.units.length + 1

/-- `Snake::default`: head at the origin facing `Vec2::X` at `INIT_SPEED`,
no body units. -/
def Snake.default : Snake :=
  { head := { unit := ⟨⟨0, 0⟩⟩, direction := ⟨1, 0⟩, speed := INIT_SPEED }
    units := [] }

/-- The mutable state of the main loop: the snake and the fruit. -/
structure GameState where
  snake : Snake
  fruit : Fruit

/-- The rotation selection of the main loop: start from `0.0`, overwrite
with `ROTATION_PER_SEC_RAD` if the left key is down, then overwrite with
`-ROTATION_PER_SEC_RAD` if the right key is down. -/
def rotation_input (left_down right_down : Bool) : ℝ :=
  let rotation : ℝ := 0
  let rotation := if left_down then ROTATION_PER_SEC_RAD else rotation
  let rotation := if right_down then -ROTATION_PER_SEC_RAD else rotation
  rotation

/-- The eat step of the main loop: on `can_eat`, respawn the fruit and grow
the snake. -/
def eatPhase (eat_d1 eat_d2 : ℕ) (g : GameState) : GameState :=
  if g.snake.can_eat g.fruit then
    { snake := g.snake.add_unit, fruit := Fruit.respawn eat_d1 eat_d2 }
  else g

/-- The lose step of the main loop: on `is_lose`, reset snake and fruit. -/
def losePhase (lose_d1 lose_d2 : ℕ) (g : GameState) : GameState :=
  if g.snake.is_lose then
    { snake := Snake.default, fruit := Fruit.respawn lose_d1 lose_d2 }
  else g

/-- The movement step of the main loop: `snake.go(dt, rotation)` with the
rotation selected from the keys. -/
def movePhase (dt : ℝ) (left_down right_down : Bool) (g : GameState) : GameState :=
  { g with snake := g.snake.go dt (rotation_input left_down right_down) }

/-- One iteration of the main loop (drawing omitted), translated statement
by statement: compute the rotation from the keys, then the eat check, then
the lose check, then `snake.go(dt, rotation)`. -/
def frame (dt : ℝ) (left_down right_down : Bool)
    (eat_d1 eat_d2 lose_d1 lose_d2 : ℕ) (g : GameState) : GameState :=
  let rotation : ℝ := 0
  let rotation := if left_down then ROTATION_PER_SEC_RAD else rotation
  let rotation := if right_down then -ROTATION_PER_SEC_RAD else rotation
  let g := if g.snake.can_eat g.fruit then
      { snake := g.snake.add_unit, fruit := Fruit.respawn eat_d1 eat_d2 }
    else g
  let g := if g.snake.is_lose then
      { snake := Snake.default, fruit := Fruit.respawn lose_d1 lose_d2 }
    else g
  { g with snake := g.snake.go dt rotation }

/-- Modelled from the spec claim of C3 (not from the source): a frame that
advances the snake first and only then runs the eat check and the lose
check, the order the claim asserts. -/
def claimedOrderFrame (dt : ℝ) (left_down right_down : Bool)
    (eat_d1 eat_d2 lose_d1 lose_d2 : ℕ) (g : GameState) : GameState :=
  losePhase lose_d1 lose_d2 (eatPhase eat_d1 eat_d2 (movePhase dt left_down right_down g))

/- ------------------------------------------------------------------ -/
/- Helper lemmas                                                      -/
/- ------------------------------------------------------------------ -/

@[simp] theorem Vec2.add_x (a b : Vec2) : (a + b).x = a.x + b.x := rfl

@[simp] theorem Vec2.add_y (a b : Vec2) : (a + b).y = a.y + b.y := rfl

@[simp] theorem Vec2.sub_x (a b : Vec2) : (a - b).x = a.x - b.x := rfl

@[simp] theorem Vec2.sub_y (a b : Vec2) : (a - b).y = a.y - b.y := rfl

@[simp] theorem Vec2.smul_x (c : ℝ) (v : Vec2) : (c • v).x = c * v.x := rfl

@[simp] theorem Vec2.smul_y (c : ℝ) (v : Vec2) : (c • v).y = c * v.y := rfl

theorem UNIT_RADIUS_pos : (0 : ℝ) < UNIT_RADIUS := by norm_num [UNIT_RADIUS]

theorem Vec2.length_nonneg (v : Vec2) : 0 ≤ v.length := Real.sqrt_nonneg _

theorem Vec2.distance_comm (a b : Vec2) : a.distance b = b.distance a := by
  unfold Vec2.distance Vec2.length
  congr 1
  simp only [Vec2.sub_x, Vec2.sub_y]
  ring

theorem Vec2.length_smul (c : ℝ) (v : Vec2) : (c • v).length = |c| * v.length := by
  unfold Vec2.length
  simp only [Vec2.smul_x, Vec2.smul_y]
  rw [show (c * v.x) ^ 2 + (c * v.y) ^ 2 = c ^ 2 * (v.x ^ 2 + v.y ^ 2) by ring,
    Real.sqrt_mul (sq_nonneg c), Real.sqrt_sq_eq_abs]

theorem Vec2.dist_lt_iff {a b : Vec2} {c : ℝ} (hc : 0 < c) :
    a.distance b < c ↔ (a.x - b.x) ^ 2 + (a.y - b.y) ^ 2 < c ^ 2 := by
  unfold Vec2.distance Vec2.length
  simp only [Vec2.sub_x, Vec2.sub_y]
  exact Real.sqrt_lt' hc

theorem unitGo_length_eq_dist (u : Unit) (t : Vec2) :
    (t - u.position).length = u.position.distance t := by
  show t.distance u.position = _
  rw [Vec2.distance_comm]

theorem unitGo_of_near (u : Unit) (t : Vec2)
    (h : u.position.distance t ≤ 2 * UNIT_RADIUS) : u.go t = u := by
  unfold Unit.go
  simp only []
  rw [if_neg]
  rw [unitGo_length_eq_dist]
  push_neg
  linarith

theorem unitGo_of_far (u : Unit) (t : Vec2)
    (h : 2 * UNIT_RADIUS < u.position.distance t) :
    (u.go t).position = u.position +
      ((u.position.distance t - 2 * UNIT_RADIUS) / u.position.distance t) • (t - u.position) := by
  have hd : 0 < u.position.distance t :=
    lt_trans (by norm_num [UNIT_RADIUS]) h
  unfold Unit.go Vec2.normalize
  simp only []
  rw [unitGo_length_eq_dist]
  rw [if_pos (by linarith)]
  ext
  · simp only [Vec2.add_x, Vec2.smul_x]
    ring
  · simp only [Vec2.add_y, Vec2.smul_y]
    ring

theorem unitGo_dist_sq (u : Unit) (t : Vec2)
    (h : 2 * UNIT_RADIUS < u.position.distance t) :
    ((u.go t).position.x - t.x) ^ 2 + ((u.go t).position.y - t.y) ^ 2 =
      (2 * UNIT_RADIUS) ^ 2 := by
  have hd : 0 < u.position.distance t :=
    lt_trans (by norm_num [UNIT_RADIUS]) h
  have hne : u.position.distance t ≠ 0 := ne_of_gt hd
  have hd2 : u.position.distance t ^ 2 = (t.x - u.position.x) ^ 2 + (t.y - u.position.y) ^ 2 := by
    have heq : u.position.distance t =
        Real.sqrt ((u.position.x - t.x) ^ 2 + (u.position.y - t.y) ^ 2) := rfl
    rw [heq, Real.sq_sqrt (by positivity)]
    ring
  rw [unitGo_of_far u t h]
  simp only [Vec2.add_x, Vec2.add_y, Vec2.smul_x, Vec2.smul_y, Vec2.sub_x, Vec2.sub_y]
  have hx : u.position.x +
      (u.position.distance t - 2 * UNIT_RADIUS) / u.position.distance t * (t.x - u.position.x)
      - t.x = -(2 * UNIT_RADIUS / u.position.distance t * (t.x - u.position.x)) := by
    field_simp
    ring
  have hy : u.position.y +
      (u.position.distance t - 2 * UNIT_RADIUS) / u.position.distance t * (t.y - u.position.y)
      - t.y = -(2 * UNIT_RADIUS / u.position.distance t * (t.y - u.position.y)) := by
    field_simp
    ring
  rw [hx, hy]
  have expand : (-(2 * UNIT_RADIUS / u.position.distance t * (t.x - u.position.x))) ^ 2 +
      (-(2 * UNIT_RADIUS / u.position.distance t * (t.y - u.position.y))) ^ 2 =
      (2 * UNIT_RADIUS) ^ 2 / u.position.distance t ^ 2 *
        ((t.x - u.position.x) ^ 2 + (t.y - u.position.y) ^ 2) := by
    ring
  rw [expand, ← hd2]
  field_simp

theorem unitGo_dist_of_far (u : Unit) (t : Vec2)
    (h : 2 * UNIT_RADIUS < u.position.distance t) :
    (u.go t).position.distance t = 2 * UNIT_RADIUS := by
  unfold Vec2.distance Vec2.length
  simp only [Vec2.sub_x, Vec2.sub_y]
  rw [unitGo_dist_sq u t h, Real.sqrt_sq (by norm_num [UNIT_RADIUS])]

theorem unitGo_move_of_far (u : Unit) (t : Vec2)
    (h : 2 * UNIT_RADIUS < u.position.distance t) :
    ((u.go t).position - u.position).length = u.position.distance t - 2 * UNIT_RADIUS := by
  have hd : 0 < u.position.distance t :=
    lt_trans (by norm_num [UNIT_RADIUS]) h
  have hstep : (u.go t).position - u.position =
      ((u.position.distance t - 2 * UNIT_RADIUS) / u.position.distance t) • (t - u.position) := by
    rw [unitGo_of_far u t h]
    ext
    · simp only [Vec2.sub_x, Vec2.add_x, Vec2.smul_x]; ring
    · simp only [Vec2.sub_y, Vec2.add_y, Vec2.smul_y]; ring
  rw [hstep, Vec2.length_smul, unitGo_length_eq_dist,
    abs_of_nonneg (div_nonneg (by linarith) (le_of_lt hd))]
  exact div_mul_cancel₀ _ (ne_of_gt hd)

theorem unitGo_dist_le (u : Unit) (p : Vec2) :
    (u.go p).position.distance p ≤ 2 * UNIT_RADIUS := by
  rcases le_or_lt (u.position.distance p) (2 * UNIT_RADIUS) with h | h
  · rw [unitGo_of_near u p h]
    exact h
  · rw [unitGo_dist_of_far u p h]

theorem followFrom_length (p : Vec2) (us : List Unit) :
    (followFrom p us).length = us.length := by
  induction us generalizing p with
  | nil => rfl
  | cons u rest ih => simp [followFrom, ih]

theorem followFrom_chain (us : List Unit) (p : Vec2) :
    List.Chain' (fun a b => a.position.distance b.position ≤ 2 * UNIT_RADIUS)
      (⟨p⟩ :: followFrom p us) := by
  induction us generalizing p with
  | nil => simp [followFrom]
  | cons u rest ih =>
    simp only [followFrom]
    rw [List.chain'_cons]
    constructor
    · show p.distance (u.go p).position ≤ 2 * UNIT_RADIUS
      rw [Vec2.distance_comm]
      exact unitGo_dist_le u p
    · exact ih (u.go p).position

/- ------------------------------------------------------------------ -/
/- Claim theorems                                                     -/
/- ------------------------------------------------------------------ -/

/-- C1: `Unit::go` follow clamp.  If the pre-call distance `d` from the
unit to the target is at most `2 * UNIT_RADIUS`, the position is
unchanged.  If it exceeds `2 * UNIT_RADIUS`, the unit moves directly
toward the target (its displacement is the nonnegative multiple
`(d - 2 * UNIT_RADIUS) / d` of the vector to the target) by exactly
`d - 2 * UNIT_RADIUS`, so the post-call distance is exactly
`2 * UNIT_RADIUS`. -/
theorem unit_go_follow_clamp (u : Unit) (t : Vec2) :
    (u.position.distance t ≤ 2 * UNIT_RADIUS → (u.go t).position = u.position) ∧
    (2 * UNIT_RADIUS < u.position.distance t →
      (u.go t).position = u.position +
        ((u.position.distance t - 2 * UNIT_RADIUS) / u.position.distance t) • (t - u.position) ∧
      ((u.go t).position - u.position).length = u.position.distance t - 2 * UNIT_RADIUS ∧
      (u.go t).position.distance t = 2 * UNIT_RADIUS) :=
  ⟨fun h => by rw [unitGo_of_near u t h],
   fun h => ⟨unitGo_of_far u t h, unitGo_move_of_far u t h, unitGo_dist_of_far u t h⟩⟩

/-- Witness for C1: a unit at the origin with a target at distance 1 is
clamped to distance exactly `2 * UNIT_RADIUS`; with a target at distance
0.05 it does not move. -/
theorem unit_go_follow_clamp_witness :
    (Unit.go ⟨⟨0, 0⟩⟩ ⟨0.05, 0⟩).position = ⟨0, 0⟩ ∧
    (Unit.go ⟨⟨0, 0⟩⟩ ⟨1, 0⟩).position.distance ⟨1, 0⟩ = 2 * UNIT_RADIUS := by
  have hnear : (Vec2.mk 0 0).distance ⟨0.05, 0⟩ ≤ 2 * UNIT_RADIUS := by
    have hval : (Vec2.mk 0 0).distance ⟨0.05, 0⟩ = 0.05 := by
      unfold Vec2.distance Vec2.length
      simp only [Vec2.sub_x, Vec2.sub_y]
      rw [show ((0 : ℝ) - 0.05) ^ 2 + ((0 : ℝ) - 0) ^ 2 = (0.05 : ℝ) ^ 2 by norm_num]
      exact Real.sqrt_sq (by norm_num)
    rw [hval]
    norm_num [UNIT_RADIUS]
  have hfar : 2 * UNIT_RADIUS < (Vec2.mk 0 0).distance ⟨1, 0⟩ := by
    have hval : (Vec2.mk 0 0).distance ⟨1, 0⟩ = 1 := by
      unfold Vec2.distance Vec2.length
      simp only [Vec2.sub_x, Vec2.sub_y]
      rw [show ((0 : ℝ) - 1) ^ 2 + ((0 : ℝ) - 0) ^ 2 = (1 : ℝ) by norm_num]
      exact Real.sqrt_one
    rw [hval]
    norm_num [UNIT_RADIUS]
  exact ⟨(unit_go_follow_clamp ⟨⟨0, 0⟩⟩ ⟨0.05, 0⟩).1 hnear,
    ((unit_go_follow_clamp ⟨⟨0, 0⟩⟩ ⟨1, 0⟩).2 hfar).2.2⟩

/-- C7: after `Snake::go` the body units have been updated in chain order,
each one following the previous unit's already-updated position (the fold
`followFrom` started at the new head position), and every adjacent pair of
the chain — the head with the first body unit, and each consecutive pair
of body units — is at distance at most `2 * UNIT_RADIUS`. -/
theorem snake_go_chain_invariant (s : Snake) (dt rotation : ℝ) (_hdt : 0 ≤ dt) :
    (s.go dt rotation).units = followFrom (s.go dt rotation).head.position s.units ∧
    List.Chain' (fun a b => a.position.distance b.position ≤ 2 * UNIT_RADIUS)
      ((s.go dt rotation).head.unit :: (s.go dt rotation).units) :=
  ⟨rfl, followFrom_chain s.units (s.go dt rotation).head.position⟩

/-- Witness for C7: the invariant holds after advancing the default snake
with `dt = 0` and no rotation. -/
theorem snake_go_chain_invariant_witness :
    (Snake.default.go 0 0).units =
      followFrom (Snake.default.go 0 0).head.position Snake.default.units ∧
    List.Chain' (fun a b => a.position.distance b.position ≤ 2 * UNIT_RADIUS)
      ((Snake.default.go 0 0).head.unit :: (Snake.default.go 0 0).units) :=
  snake_go_chain_invariant Snake.default 0 0 le_rfl

/-- C2: `Snake::is_lose` holds iff either the head is within
`0.8 * UNIT_RADIUS + UNIT_RADIUS` of a body unit at index at least 1 (the
first body unit, index 0, is skipped) or the absolute value of the head's
x or y coordinate exceeds `FIELD_SIZE / 2 - UNIT_RADIUS`; body unit
positions are not consulted by the wall condition. -/
theorem is_lose_characterisation (s : Snake) :
    s.is_lose ↔
      (∃ i u, 1 ≤ i ∧ s.units[i]? = some u ∧
        s.head.unit.position.distance u.position < 0.8 * UNIT_RADIUS + UNIT_RADIUS) ∨
      (|s.head.unit.position.x| > FIELD_SIZE / 2 - UNIT_RADIUS ∨
       |s.head.unit.position.y| > FIELD_SIZE / 2 - UNIT_RADIUS) := by
  unfold Snake.is_lose Head.intersect Unit.intersect Head.position
  simp only []
  apply or_congr
  · constructor
    · rintro ⟨u, hu, hlt⟩
      obtain ⟨j, hj⟩ := List.mem_iff_getElem?.mp hu
      rw [List.getElem?_drop] at hj
      exact ⟨1 + j, u, Nat.le_add_right 1 j, hj, by linarith⟩
    · rintro ⟨i, u, hi, hu, hlt⟩
      refine ⟨u, ?_, by linarith⟩
      apply List.mem_iff_getElem?.mpr
      refine ⟨i - 1, ?_⟩
      rw [List.getElem?_drop, Nat.add_sub_cancel' hi]
      exact hu
  · exact Iff.rfl

/-- C4: the per-frame rotation is `-ROTATION_PER_SEC_RAD` whenever the
right key is held (regardless of the left key, which is checked first and
overwritten), `ROTATION_PER_SEC_RAD` when only the left key is held, and
`0` when neither key is held. -/
theorem rotation_input_spec :
    (∀ left_down : Bool, rotation_input left_down true = -ROTATION_PER_SEC_RAD) ∧
    rotation_input true false = ROTATION_PER_SEC_RAD ∧
    rotation_input false false = 0 :=
  ⟨fun left_down => by cases left_down <;> rfl, rfl, rfl⟩

/-- C5: `Snake::can_eat` holds iff the Euclidean distance between the
head's position and the fruit's position is strictly less than
`FRUIT_RADIUS + UNIT_RADIUS`; in particular it fails whenever that
distance is at least `FRUIT_RADIUS + UNIT_RADIUS`. -/
theorem can_eat_characterisation (s : Snake) (f : Fruit) :
    (s.can_eat f ↔
      Real.sqrt ((s.head.unit.position.x - f.position.x) ^ 2 +
        (s.head.unit.position.y - f.position.y) ^ 2) < FRUIT_RADIUS + UNIT_RADIUS) ∧
    (FRUIT_RADIUS + UNIT_RADIUS ≤
        Real.sqrt ((s.head.unit.position.x - f.position.x) ^ 2 +
          (s.head.unit.position.y - f.position.y) ^ 2) →
      ¬ s.can_eat f) := by
  have hdef : s.can_eat f ↔
      Real.sqrt ((s.head.unit.position.x - f.position.x) ^ 2 +
        (s.head.unit.position.y - f.position.y) ^ 2) < FRUIT_RADIUS + UNIT_RADIUS := Iff.rfl
  exact ⟨hdef, fun h hc => absurd (hdef.mp hc) (not_lt.mpr h)⟩

/-- Witness for C5: the default snake's head, at the origin, cannot eat a
fruit at distance 1. -/
theorem can_eat_characterisation_witness : ¬ Snake.default.can_eat ⟨⟨1, 0⟩⟩ := by
  apply (can_eat_characterisation Snake.default ⟨⟨1, 0⟩⟩).2
  have harg : (Snake.default.head.unit.position.x - (Fruit.mk ⟨1, 0⟩).position.x) ^ 2 +
      (Snake.default.head.unit.position.y - (Fruit.mk ⟨1, 0⟩).position.y) ^ 2 = 1 := by
    norm_num [Snake.default]
  rw [harg, Real.sqrt_one]
  norm_num [FRUIT_RADIUS, UNIT_RADIUS]

theorem Snake.add_unit_units (s : Snake) :
    (s.add_unit).units = s.units ++ [s.units.getLast?.getD s.head.unit] := rfl

theorem Snake.add_unit_length (s : Snake) :
    (s.add_unit).units.length = s.units.length + 1 := by
  rw [Snake.add_unit_units]
  simp

/-- C6: `Snake::add_unit` appends exactly one new body unit, equal to the
current last body unit (hence placed at its position), or to the head's
unit when the body is empty; consequently `n` calls starting from an empty
body leave exactly `n` body units. -/
theorem add_unit_spec (s : Snake) :
    (s.add_unit).units.length = s.units.length + 1 ∧
    (s.add_unit).units.take s.units.length = s.units ∧
    (s.units = [] → (s.add_unit).units = [s.head.unit]) ∧
    (∀ u, s.units.getLast? = some u → (s.add_unit).units.getLast? = some u) ∧
    ∀ n : ℕ, (Snake.add_unit^[n] { s with units := [] }).units.length = n := by
  refine ⟨Snake.add_unit_length s, ?_, ?_, ?_, ?_⟩
  · rw [Snake.add_unit_units]
    exact List.take_left s.units _
  · intro he
    rw [Snake.add_unit_units, he]
    rfl
  · intro u hu
    rw [Snake.add_unit_units, hu]
    exact List.getLast?_concat _
  · intro n
    induction n with
    | zero => rfl
    | succ k ih =>
      rw [Function.iterate_succ_apply', Snake.add_unit_length, ih]

/-- Witness for C6: growing the default snake (empty body) places the new
unit at the head's unit, and three grows from an empty body give three
body units. -/
theorem add_unit_spec_witness :
    (Snake.default.add_unit).units = [Snake.default.head.unit] ∧
    (Snake.add_unit^[3] { Snake.default with units := [] }).units.length = 3 :=
  ⟨(add_unit_spec Snake.default).2.2.1 rfl, (add_unit_spec Snake.default).2.2.2.2 3⟩

theorem Vec2.rotate_fromAngle_length (angle : ℝ) (v : Vec2) :
    ((Vec2.fromAngle angle).rotate v).length = v.length := by
  unfold Vec2.fromAngle Vec2.rotate Vec2.length
  congr 1
  have hpyth : Real.sin angle ^ 2 + Real.cos angle ^ 2 = 1 := Real.sin_sq_add_cos_sq angle
  linear_combination (v.x ^ 2 + v.y ^ 2) * hpyth

theorem head_rotate_direction (h : Head) (angle : ℝ) :
    (h.rotate angle).direction =
      ⟨Real.cos angle * h.direction.x - Real.sin angle * h.direction.y,
       Real.sin angle * h.direction.x + Real.cos angle * h.direction.y⟩ := rfl

theorem head_rotate_length (h : Head) (angle : ℝ) :
    (h.rotate angle).direction.length = h.direction.length :=
  Vec2.rotate_fromAngle_length angle h.direction

theorem head_rotate_foldl_length (angles : List ℝ) :
    ∀ h : Head, h.direction.length = 1 → (angles.foldl Head.rotate h).direction.length = 1 := by
  induction angles with
  | nil => exact fun _ hn => hn
  | cons a rest ih =>
    intro h hn
    exact ih (h.rotate a) (by rw [head_rotate_length, hn])

/-- C8: for a head whose direction has magnitude 1, `Head::rotate` applies
the standard counter-clockwise rotation matrix for `angle` radians to the
direction and keeps its magnitude 1, and the magnitude stays 1 after any
sequence of `rotate` calls. -/
theorem head_rotate_spec (h : Head) (angle : ℝ) (hnorm : h.direction.length = 1) :
    ((h.rotate angle).direction =
      ⟨Real.cos angle * h.direction.x - Real.sin angle * h.direction.y,
       Real.sin angle * h.direction.x + Real.cos angle * h.direction.y⟩ ∧
     (h.rotate angle).direction.length = 1) ∧
    ∀ angles : List ℝ, (angles.foldl Head.rotate h).direction.length = 1 :=
  ⟨⟨head_rotate_direction h angle, by rw [head_rotate_length, hnorm]⟩,
   fun angles => head_rotate_foldl_length angles h hnorm⟩

/-- Witness for C8: the default head's unit direction keeps magnitude 1
after a rotation by 0 and after the sequence of rotations `[0.5, 1]`. -/
theorem head_rotate_spec_witness :
    (Snake.default.head.rotate 0).direction.length = 1 ∧
    (([0.5, 1] : List ℝ).foldl Head.rotate Snake.default.head).direction.length = 1 := by
  have hnorm : Snake.default.head.direction.length = 1 := by
    show (Vec2.mk 1 0).length = 1
    unfold Vec2.length
    rw [show ((1 : ℝ) ^ 2 + (0 : ℝ) ^ 2) = 1 by norm_num]
    exact Real.sqrt_one
  exact ⟨(head_rotate_spec Snake.default.head 0 hnorm).1.2,
    (head_rotate_spec Snake.default.head 0 hnorm).2 [0.5, 1]⟩

/-- C10: `Snake::go` preserves the number of body units and the head's
speed; only the head's position and direction and the body units'
positions are updated. -/
theorem snake_go_frame_effect (s : Snake) (dt rotation : ℝ) :
    (s.go dt rotation).units.length = s.units.length ∧
    (s.go dt rotation).head.speed = s.head.speed :=
  ⟨followFrom_length _ s.units, rfl⟩

/-- Counterexample for C9: at the draw `u32::MAX = 4294967295` (a valid
32-bit value), `rand_f32` returns exactly 1, so its value does not lie in
the half-open interval `[0, 1)`. -/
theorem rand_f32_unit_interval_counterexample :
    rand_f32 4294967295 = 1 ∧ ¬ rand_f32 4294967295 < 1 := by
  have h1 : rand_f32 4294967295 = 1 := by
    unfold rand_f32 U32_MAX
    norm_num
  exact ⟨h1, by rw [h1]; exact lt_irrefl 1⟩

/-- C9 (amended): for every valid 32-bit draw, `rand_f32` returns a value
in the closed interval `[0, 1]` (the right endpoint is attained at the
draw `u32::MAX`), and consequently each coordinate produced by
`random_position` lies within the field's coordinate range
`[-FIELD_SIZE / 2, FIELD_SIZE / 2]`. -/
theorem rand_f32_range (d1 : ℕ) (h1 : d1 ≤ U32_MAX) :
    (0 ≤ rand_f32 d1 ∧ rand_f32 d1 ≤ 1) ∧
    ∀ d2 : ℕ, d2 ≤ U32_MAX →
      (-(FIELD_SIZE / 2) ≤ (random_position d1 d2).x ∧
        (random_position d1 d2).x ≤ FIELD_SIZE / 2 ∧
       -(FIELD_SIZE / 2) ≤ (random_position d1 d2).y ∧
        (random_position d1 d2).y ≤ FIELD_SIZE / 2) := by
  have hbound : ∀ d : ℕ, d ≤ U32_MAX → 0 ≤ rand_f32 d ∧ rand_f32 d ≤ 1 := by
    intro d hd
    unfold rand_f32
    constructor
    · positivity
    · rw [div_le_one (by norm_num [U32_MAX])]
      exact_mod_cast hd
  refine ⟨hbound d1 h1, fun d2 h2 => ?_⟩
  obtain ⟨ha1, hb1⟩ := hbound d1 h1
  obtain ⟨ha2, hb2⟩ := hbound d2 h2
  have hx : (random_position d1 d2).x = rand_f32 d1 * 2 - 1 := rfl
  have hy : (random_position d1 d2).y = rand_f32 d2 * 2 - 1 := rfl
  have hfs : FIELD_SIZE / 2 = (1 : ℝ) := by norm_num [FIELD_SIZE]
  rw [hx, hy, hfs]
  exact ⟨by linarith, by linarith, by linarith, by linarith⟩

/-- Witness for C9 (amended): the draws 0 and `u32::MAX` are valid and the
produced coordinates stay within the field range. -/
theorem rand_f32_range_witness :
    (0 ≤ rand_f32 0 ∧ rand_f32 0 ≤ 1) ∧
    (-(FIELD_SIZE / 2) ≤ (random_position 0 4294967295).x ∧
      (random_position 0 4294967295).x ≤ FIELD_SIZE / 2 ∧
     -(FIELD_SIZE / 2) ≤ (random_position 0 4294967295).y ∧
      (random_position 0 4294967295).y ≤ FIELD_SIZE / 2) :=
  ⟨(rand_f32_range 0 (by norm_num [U32_MAX])).1,
   (rand_f32_range 0 (by norm_num [U32_MAX])).2 4294967295 (by norm_num [U32_MAX])⟩

theorem eatPhase_of_not (d1 d2 : ℕ) (g : GameState) (h : ¬ g.snake.can_eat g.fruit) :
    eatPhase d1 d2 g = g := by
  unfold eatPhase
  exact if_neg h

theorem eatPhase_of_can (d1 d2 : ℕ) (g : GameState) (h : g.snake.can_eat g.fruit) :
    eatPhase d1 d2 g = { snake := g.snake.add_unit, fruit := Fruit.respawn d1 d2 } := by
  unfold eatPhase
  exact if_pos h

theorem losePhase_of_not (d1 d2 : ℕ) (g : GameState) (h : ¬ g.snake.is_lose) :
    losePhase d1 d2 g = g := by
  unfold losePhase
  exact if_neg h

theorem snake_go_head_pos (s : Snake) (dt rotation : ℝ) :
    (s.go dt rotation).head.unit.position =
      s.head.unit.position +
        (s.head.speed * dt) • ((Vec2.fromAngle (rotation * dt)).rotate s.head.direction) := rfl

theorem is_lose_elim (s : Snake) (hunits : s.units.drop 1 = [])
    (hx : |s.head.unit.position.x| ≤ FIELD_SIZE / 2 - UNIT_RADIUS)
    (hy : |s.head.unit.position.y| ≤ FIELD_SIZE / 2 - UNIT_RADIUS) :
    ¬ s.is_lose := by
  unfold Snake.is_lose Head.position
  simp only []
  intro h
  rcases h with ⟨u, hu, _⟩ | hw | hw
  · rw [hunits] at hu
    exact absurd hu (List.not_mem_nil u)
  · exact absurd hw (not_lt.mpr hx)
  · exact absurd hw (not_lt.mpr hy)

theorem frame_eq_phases (dt : ℝ) (left_down right_down : Bool)
    (eat_d1 eat_d2 lose_d1 lose_d2 : ℕ) (g : GameState) :
    frame dt left_down right_down eat_d1 eat_d2 lose_d1 lose_d2 g =
      movePhase dt left_down right_down
        (losePhase lose_d1 lose_d2 (eatPhase eat_d1 eat_d2 g)) := rfl

/-- C3 (amended): each frame applies, in order: rotation selection from the
keys, then the eat check (which may respawn the fruit and grow the snake),
then the lose check (which may reset the whole game state), and only then
`Snake::go` advancing the head and propagating the follow constraint; the
eat check is evaluated before the lose check, but both are evaluated
before the snake is advanced within the frame, i.e. against the positions
produced by the previous frame's advance. -/
theorem frame_phase_order (dt : ℝ) (left_down right_down : Bool)
    (eat_d1 eat_d2 lose_d1 lose_d2 : ℕ) (g : GameState) :
    frame dt left_down right_down eat_d1 eat_d2 lose_d1 lose_d2 g =
      movePhase dt left_down right_down
        (losePhase lose_d1 lose_d2 (eatPhase eat_d1 eat_d2 g)) :=
  frame_eq_phases dt left_down right_down eat_d1 eat_d2 lose_d1 lose_d2 g

set_option maxHeartbeats 1600000 in
/-- Counterexample for C3: with the default snake (head at the origin
moving along x at speed 0.4), the fruit at `(0.4, 0)`, `dt = 1` and no
keys held, the frame as implemented does not grow the snake — the eat
check ran before the head advanced onto the fruit — while a frame that
advances the snake before the checks, the order the claim asserts, grows
it to one body unit. -/
theorem frame_order_counterexample :
    (frame 1 false false 0 0 0 0 ⟨Snake.default, ⟨⟨0.4, 0⟩⟩⟩).snake.units.length = 0 ∧
    (claimedOrderFrame 1 false false 0 0 0 0 ⟨Snake.default, ⟨⟨0.4, 0⟩⟩⟩).snake.units.length = 1 := by
  have hne : ¬ Snake.default.can_eat ⟨⟨0.4, 0⟩⟩ := by
    show ¬ (Vec2.mk 0 0).distance ⟨0.4, 0⟩ < FRUIT_RADIUS + UNIT_RADIUS
    rw [Vec2.dist_lt_iff (by norm_num [FRUIT_RADIUS, UNIT_RADIUS])]
    norm_num [FRUIT_RADIUS, UNIT_RADIUS]
  have hnl0 : ¬ Snake.default.is_lose := by
    apply is_lose_elim
    · rfl
    · show |(0 : ℝ)| ≤ FIELD_SIZE / 2 - UNIT_RADIUS
      norm_num [FIELD_SIZE, UNIT_RADIUS]
    · show |(0 : ℝ)| ≤ FIELD_SIZE / 2 - UNIT_RADIUS
      norm_num [FIELD_SIZE, UNIT_RADIUS]
  have hrot : rotation_input false false = 0 := rfl
  have hmove : (movePhase 1 false false ⟨Snake.default, ⟨⟨0.4, 0⟩⟩⟩).snake.head.unit.position =
      ⟨0.4, 0⟩ := by
    show (Snake.default.go 1 (rotation_input false false)).head.unit.position = _
    rw [snake_go_head_pos, hrot]
    ext
    · simp only [Vec2.add_x, Vec2.smul_x, Vec2.fromAngle, Vec2.rotate, Snake.default]
      norm_num [INIT_SPEED, Real.cos_zero, Real.sin_zero]
    · simp only [Vec2.add_y, Vec2.smul_y, Vec2.fromAngle, Vec2.rotate, Snake.default]
      norm_num [INIT_SPEED, Real.cos_zero, Real.sin_zero]
  have hg1units : (movePhase 1 false false ⟨Snake.default, ⟨⟨0.4, 0⟩⟩⟩).snake.units = [] := rfl
  have heat : (movePhase 1 false false ⟨Snake.default, ⟨⟨0.4, 0⟩⟩⟩).snake.can_eat
      (movePhase 1 false false ⟨Snake.default, ⟨⟨0.4, 0⟩⟩⟩).fruit := by
    show (movePhase 1 false false ⟨Snake.default, ⟨⟨0.4, 0⟩⟩⟩).snake.head.unit.position.distance
        (⟨0.4, 0⟩ : Vec2) < FRUIT_RADIUS + UNIT_RADIUS
    rw [hmove, Vec2.dist_lt_iff (by norm_num [FRUIT_RADIUS, UNIT_RADIUS])]
    norm_num [FRUIT_RADIUS, UNIT_RADIUS]
  have heatstep : eatPhase 0 0 (movePhase 1 false false ⟨Snake.default, ⟨⟨0.4, 0⟩⟩⟩) =
      { snake := (movePhase 1 false false ⟨Snake.default, ⟨⟨0.4, 0⟩⟩⟩).snake.add_unit,
        fruit := Fruit.respawn 0 0 } := eatPhase_of_can 0 0 _ heat
  have hg2units :
      ((movePhase 1 false false ⟨Snake.default, ⟨⟨0.4, 0⟩⟩⟩).snake.add_unit).units.length = 1 := by
    rw [Snake.add_unit_length, hg1units]
    rfl
  have hnl2 : ¬ ((movePhase 1 false false ⟨Snake.default, ⟨⟨0.4, 0⟩⟩⟩).snake.add_unit).is_lose := by
    apply is_lose_elim
    · rw [Snake.add_unit_units, hg1units]
      rfl
    · show |(movePhase 1 false false ⟨Snake.default, ⟨⟨0.4, 0⟩⟩⟩).snake.head.unit.position.x| ≤ _
      rw [hmove]
      show |(0.4 : ℝ)| ≤ FIELD_SIZE / 2 - UNIT_RADIUS
      rw [abs_le]
      constructor <;> norm_num [FIELD_SIZE, UNIT_RADIUS]
    · show |(movePhase 1 false false ⟨Snake.default, ⟨⟨0.4, 0⟩⟩⟩).snake.head.unit.position.y| ≤ _
      rw [hmove]
      show |(0 : ℝ)| ≤ FIELD_SIZE / 2 - UNIT_RADIUS
      rw [abs_le]
      constructor <;> norm_num [FIELD_SIZE, UNIT_RADIUS]
  constructor
  · rw [frame_eq_phases,
      eatPhase_of_not 0 0 ⟨Snake.default, ⟨⟨0.4, 0⟩⟩⟩ hne,
      losePhase_of_not 0 0 ⟨Snake.default, ⟨⟨0.4, 0⟩⟩⟩ hnl0,
      hg1units]
    rfl
  · unfold claimedOrderFrame
    rw [heatstep,
      losePhase_of_not 0 0
        { snake := (movePhase 1 false false ⟨Snake.default, ⟨⟨0.4, 0⟩⟩⟩).snake.add_unit,
          fruit := Fruit.respawn 0 0 } hnl2]
    exact hg2units

end

end SnakeGame
